import Mathlib

/-!
# Verification of the custom-oracle update scripts

Shallow embedding of the core of the Lifinity custom-oracle repository:
the update decision policy (needUpdate), the status computation and
inactivity rule of the main loop, the transaction delivery protocol
(transactionSenderAndConfirmationWaiter), the oracle update payload
layout (composeUpdatePriceTransaction), the startup configuration check,
and the optimistic local state update (updatePrice).

JavaScript numbers used for prices, thresholds and timestamps in the
policy layer are modelled as rationals (exact arithmetic); the
millisecond clock readings of the delivery loop are modelled as natural
numbers.  Asynchronous effects are made explicit: the delivery loop is a
fuel-indexed recursion over an environment that fixes, per iteration,
the clock reading, whether the confirmation query yields a (truthy)
response, and whether either network call rejects.  A function that can
throw is embedded with Option or Except, none/error marking the thrown
path.
-/

namespace Oracle

/-! ## Data model of the publisher -/

/-- Configuration thresholds read once at startup (fields of the Config
interface that feed the decision policy and status computation). -/
structure OracleConfig where
  updateThreshold : ℚ
  updateInterval : ℚ
  inactiveDuration : ℚ
  minThreshold : ℚ
  maxThreshold : ℚ
  allowNegativeSpread : Bool
deriving DecidableEq

/-- Local publisher state: the three fields lastUpdate, lastPrice,
lastStatus of class Main, initialised to zero at process start. -/
structure OracleState where
  lastUpdate : ℚ
  lastPrice : ℚ
  lastStatus : Nat
deriving DecidableEq

/-- Status code 1, written when the observation passes the validity
checks. -/
def validStatus : Nat := 1

/-- Status code 0, written when the observation fails a validity check or
when the inactivity rule degrades the oracle. -/
def invalidStatus : Nat := 0

/-- getMarkPrice from the source: mid price of a bid/ask pair. -/
def getMarkPrice (bid ask : ℚ) : ℚ := (bid + ask) / 2

/-- needUpdate from the source.  Returns none when the JavaScript
assertion assert(this.lastPrice) throws, which happens exactly when the
freshness branch was not taken and lastPrice is zero.  The deviation is
Math.abs((price - lastPrice) / lastPrice * 100), the absolute value
taken of the whole expression. -/
def needUpdate (cfg : OracleConfig) (st : OracleState) (price now : ℚ) : Option Bool :=
  if now > st.lastUpdate + cfg.updateInterval then some true
  else if st.lastPrice = 0 then none
  else some (decide (|(price - st.lastPrice) / st.lastPrice * 100| > cfg.updateThreshold))

/-- computeStatus: the status expression of the main loop, evaluated when
a publish was decided.  Mirrors
((!allowNegativeSpread && negativeSpread) || outOfThreshold ? 0 : 1)
with negativeSpread = bid > ask and
outOfThreshold = price < minThreshold || maxThreshold < price. -/
def computeStatus (cfg : OracleConfig) (bid ask : ℚ) : Nat :=
  if (cfg.allowNegativeSpread = false ∧ bid > ask)
      ∨ getMarkPrice bid ask < cfg.minThreshold
      ∨ cfg.maxThreshold < getMarkPrice bid ask
  then invalidStatus else validStatus

/-- The three assignments at the end of updatePrice: lastPrice, lastStatus
and lastUpdate are overwritten with the submitted values. -/
def applyUpdate (price : ℚ) (status : Nat) (now : ℚ) : OracleState :=
  { lastUpdate := now, lastPrice := price, lastStatus := status }

/-- One on-chain publish request handed to updatePrice. -/
structure PublishEvent where
  price : ℚ
  status : Nat
  now : ℚ
deriving DecidableEq

/-- First half of one tick of the inner main loop: if an observation
(bid, ask) was obtained, compute the mark price, consult needUpdate and
publish with the computed status when it says so.  Returns none when
needUpdate throws (the tick body aborts to the outer catch). -/
def tickPublishPhase (cfg : OracleConfig) (st : OracleState)
    (obs : Option (ℚ × ℚ)) (now : ℚ) : Option (OracleState × List PublishEvent) :=
  match obs with
  | none => some (st, [])
  | some (bid, ask) =>
    match needUpdate cfg st (getMarkPrice bid ask) now with
    | none => none
    | some false => some (st, [])
    | some true =>
      some (applyUpdate (getMarkPrice bid ask) (computeStatus cfg bid ask) now,
            [⟨getMarkPrice bid ask, computeStatus cfg bid ask, now⟩])

/-- Guard of the inactivity rule:
this.inactiveDuration && now > this.lastUpdate + this.inactiveDuration && this.lastStatus,
with JavaScript truthiness of a number meaning nonzero. -/
def inactiveFires (cfg : OracleConfig) (st : OracleState) (now : ℚ) : Bool :=
  decide (cfg.inactiveDuration ≠ 0)
    && decide (now > st.lastUpdate + cfg.inactiveDuration)
    && decide (st.lastStatus ≠ 0)

/-- One full tick of the inner main loop: the publish phase above,
followed unconditionally by the inactivity rule, which republishes the
last known price with status forced to 0. -/
def tick (cfg : OracleConfig) (st : OracleState)
    (obs : Option (ℚ × ℚ)) (now : ℚ) : Option (OracleState × List PublishEvent) :=
  match tickPublishPhase cfg st obs now with
  | none => none
  | some (st1, evs) =>
    some (if inactiveFires cfg st1 now
      then (applyUpdate st1.lastPrice invalidStatus now,
            evs ++ [⟨st1.lastPrice, invalidStatus, now⟩])
      else (st1, evs))

/-- The startup configuration check of main:
if (this.inactiveDuration && this.inactiveDuration < this.updateInterval)
then log the error and return.  True means the process refuses to start. -/
def configRefused (inactiveDuration updateInterval : ℚ) : Bool :=
  decide (inactiveDuration ≠ 0) && decide (inactiveDuration < updateInterval)

/-! ## Transaction delivery protocol -/

/-- Environment of one invocation of
transactionSenderAndConfirmationWaiter.  start is the clock reading
recorded right after the initial broadcast; t i is the clock reading
observed at loop iteration i (the guard read and the timestamp read of
one iteration are adjacent with no await between them and are modelled
as equal; the sleeps of an iteration advance the clock to the next
reading).  confirmAt i says whether the getTransaction race of iteration
i observes a truthy response; queryFails i whether that getTransaction
call rejects (the rejection is swallowed by Promise.any because the
fixed sleep always resolves); sendFails i whether the rebroadcast issued
at iteration i rejects (that await has no handler, so the whole function
rejects); initSendFails whether the initial broadcast rejects. -/
structure DeliveryEnv where
  start : Nat
  t : Nat → Nat
  confirmAt : Nat → Bool
  queryFails : Nat → Bool
  sendFails : Nat → Bool
  initSendFails : Bool

/-- Outcome of one delivery invocation.  returned carries the confirmed
flag (true means a transactionResponse was observed, false means the
deadline expired with transactionResponse null), the total number of
broadcast calls issued (initial send plus rebroadcasts, a failed one
included), and the clock reading at which the function returned.  raised
means the async function rejected (an unhandled network-call failure). -/
inductive DeliveryOutcome where
  | returned (confirmed : Bool) (sends : Nat) (endTime : Nat)
  | raised (sends : Nat)
deriving DecidableEq

/-- Duration of the fixed sleep raced against the confirmation query:
sleep(1500) in the source. -/
def raceWaitMs : Nat := 1500

/-- TX_DURATION, the default timeout of the delivery protocol. -/
def defaultTimeout : Nat := 120000

/-- Default pollInterval parameter of
transactionSenderAndConfirmationWaiter. -/
def defaultPollIntervalMs : Nat := 1000

/-- Default sendInterval parameter (rebroadcast interval). -/
def defaultSendIntervalMs : Nat := 5000

/-- Default sendRetries parameter (maximum number of rebroadcasts). -/
def defaultSendRetries : Nat := 40

/-- The while loop of transactionSenderAndConfirmationWaiter.  i is the
iteration index, lastSend the value of lastSendTimestamp, retries the
rebroadcast count so far.  Fuel bounds the number of iterations; none
marks fuel exhaustion and is a modelling artifact ruled out in the
theorems (a strictly increasing clock exits the guard within timeout
iterations). -/
def deliverLoop (timeout sendInterval sendRetries : Nat) (e : DeliveryEnv) :
    Nat → Nat → Nat → Nat → Option DeliveryOutcome
  | 0, i, _, retries =>
    if e.t i - e.start < timeout then none
    else some (.returned false (retries + 1) (e.t i))
  | fuel + 1, i, lastSend, retries =>
    if e.t i - e.start < timeout then
      if retries < sendRetries ∧ sendInterval < e.t i - lastSend then
        if e.sendFails i then some (.raised (retries + 2))
        else if e.queryFails i = false ∧ e.confirmAt i = true then
          some (.returned true (retries + 2) (e.t i))
        else deliverLoop timeout sendInterval sendRetries e fuel (i + 1) (e.t i) (retries + 1)
      else
        if e.queryFails i = false ∧ e.confirmAt i = true then
          some (.returned true (retries + 1) (e.t i))
        else deliverLoop timeout sendInterval sendRetries e fuel (i + 1) lastSend retries
    else some (.returned false (retries + 1) (e.t i))

/-- transactionSenderAndConfirmationWaiter: initial broadcast, then the
loop with lastSendTimestamp = start and retries = 0.  The pollInterval
parameter only determines sleep durations, which are already reflected
in the clock trace of the environment. -/
def deliver (timeout pollInterval sendInterval sendRetries : Nat)
    (e : DeliveryEnv) (fuel : Nat) : Option DeliveryOutcome :=
  if e.initSendFails then some (.raised 1)
  else deliverLoop timeout sendInterval sendRetries e fuel 0 e.start 0

/-- updatePrice: compose and sign the transaction (getLatestBlockhash may
throw, in which case nothing was assigned and the previous state st is
kept, modelled by Except.error st), launch the delivery protocol with
its default parameters without awaiting it (its outcome is carried in
the second component but the continuation only logs, and a rejection is
swallowed by the empty catch), and overwrite the three state fields with
the submitted values. -/
def updatePriceRun (st : OracleState) (bhFails : Bool) (e : DeliveryEnv) (fuel : Nat)
    (price : ℚ) (status : Nat) (now : ℚ) :
    Except OracleState (OracleState × Option DeliveryOutcome) :=
  if bhFails then Except.error st
  else Except.ok (applyUpdate price status now,
    deliver defaultTimeout defaultPollIntervalMs defaultSendIntervalMs defaultSendRetries e fuel)

/-! ## Oracle update payload -/

/-- Little-endian encoding of a value into the given number of bytes. -/
def encUIntLE : Nat → Nat → List Nat
  | 0, _ => []
  | w + 1, v => v % 256 :: encUIntLE w (v / 256)

/-- Little-endian decoding of a byte list. -/
def decUIntLE : List Nat → Nat
  | [] => 0
  | b :: bs => b + 256 * decUIntLE bs

/-- Two's complement representation value of an in-range signed 64-bit
quantity, as laid down in the buffer by the two 32-bit writes of the
near-int64 codec. -/
def toTwos64 (n : Int) : Nat := (n % ((2 : Int) ^ 64)).toNat

/-- Signed interpretation of a 64-bit representation value: the decoder
reads the low word unsigned and the high word signed, which is exactly
this two's complement reading. -/
def fromTwos64 (v : Nat) : Int :=
  if v < 2 ^ 63 then (v : Int) else (v : Int) - 2 ^ 64

/-- The 21 bytes of the instruction data for in-range field values:
instruction byte 0, then the three little-endian fields. -/
def payloadBytes (scaledPrice : Int) (scaledConf : Nat) (status : Nat) : List Nat :=
  0 :: (encUIntLE 8 (toTwos64 scaledPrice)
    ++ encUIntLE 8 scaledConf
    ++ encUIntLE 4 status)

/-- The instruction data encoded by composeUpdatePriceTransaction:
struct([u8(instruction), ns64(price), nu64(confidence), u32(status)])
with instruction 0, all fields little-endian.  The ns64 codec splits the
value into a signed high and an unsigned low 32-bit word and writes them
with the bounds-checked buffer writes of the runtime, so a scaled price
outside the signed 64-bit range (or a confidence outside the unsigned
64-bit range, or a status at or above 2^32) makes the encoder throw
instead of producing bytes; the thrown path is modelled by none. -/
def encodePayload (scaledPrice scaledConf : Int) (status : Nat) : Option (List Nat) :=
  if -(2 ^ 63) ≤ scaledPrice ∧ scaledPrice < 2 ^ 63
      ∧ 0 ≤ scaledConf ∧ scaledConf < 2 ^ 64 ∧ status < 2 ^ 32 then
    some (payloadBytes scaledPrice scaledConf.toNat status)
  else none

/-- Decoder of the fixed 21-byte layout: instruction u8, price s64 LE,
confidence u64 LE, status u32 LE. -/
def decodePayload (bytes : List Nat) : Option (Nat × Int × Nat × Nat) :=
  if bytes.length = 21 then
    some (bytes.headD 0,
          fromTwos64 (decUIntLE ((bytes.drop 1).take 8)),
          decUIntLE ((bytes.drop 9).take 8),
          decUIntLE (bytes.drop 17))
  else none

/-- The payload built by composeUpdatePriceTransaction for a price,
confidence and status: the price is scaled by 100000000 and the
confidence by 10000 before encoding.  The numerator of the scaled
rational is the integer handed to the 64-bit field (exact whenever the
scaled value is integral, the case covered by the round-trip theorem);
none models the encoder throwing on an out-of-range field. -/
def composeUpdatePriceData (price confidence : ℚ) (status : Nat) : Option (List Nat) :=
  encodePayload (price * 100000000).num (confidence * 10000).num status

/-! ## Payload layout lemmas (claim C6) -/

/-- A little-endian encoding occupies exactly its declared width. -/
theorem encUIntLE_length : ∀ w v : Nat, (encUIntLE w v).length = w
  | 0, _ => rfl
  | w + 1, v => by simp [encUIntLE, encUIntLE_length w (v / 256)]

/-- Little-endian decoding inverts encoding for in-range values. -/
theorem decUIntLE_encUIntLE : ∀ w v : Nat, v < 256 ^ w → decUIntLE (encUIntLE w v) = v
  | 0, v, h => by
    simp only [pow_zero] at h
    simp only [encUIntLE, decUIntLE]
    omega
  | w + 1, v, h => by
    have hdiv : v / 256 < 256 ^ w := by
      refine (Nat.div_lt_iff_lt_mul (by norm_num)).mpr ?_
      rw [pow_succ] at h
      exact h
    simp only [encUIntLE, decUIntLE]
    rw [decUIntLE_encUIntLE w (v / 256) hdiv]
    omega

/-- The representation value of a signed 64-bit field fits in 64 bits. -/
theorem toTwos64_lt_size (n : Int) : toTwos64 n < 2 ^ 64 := by
  unfold toTwos64
  have e1 : ((2 : Int) ^ 64) = 18446744073709551616 := by norm_num
  have e2 : (2 : Nat) ^ 64 = 18446744073709551616 := by norm_num
  rw [e1, e2]
  omega

/-- Signed round trip of the 64-bit field on the representable range. -/
theorem fromTwos64_toTwos64 (n : Int) (h1 : -(2 ^ 63) ≤ n) (h2 : n < 2 ^ 63) :
    fromTwos64 (toTwos64 n) = n := by
  unfold toTwos64 fromTwos64
  have e1 : ((2 : Int) ^ 64) = 18446744073709551616 := by norm_num
  have e2 : ((2 : Int) ^ 63) = 9223372036854775808 := by norm_num
  have e3 : (2 : Nat) ^ 63 = 9223372036854775808 := by norm_num
  rw [e1, e2] at *
  rw [e3]
  split <;> omega

/-- The byte list of a payload is exactly 21 bytes long:
1 (instruction) + 8 (price) + 8 (confidence) + 4 (status). -/
theorem payloadBytes_length (p : Int) (c s : Nat) :
    (payloadBytes p c s).length = 21 := by
  simp [payloadBytes, encUIntLE_length]

/-- On the ranges of the fields the encoder produces the fixed layout
and decoding inverts it: instruction byte 0, signed 64-bit price,
unsigned 64-bit confidence, unsigned 32-bit status. -/
theorem decodePayload_encodePayload (p c : Int) (s : Nat)
    (hp1 : -(2 ^ 63) ≤ p) (hp2 : p < 2 ^ 63) (hc0 : 0 ≤ c) (hc : c < 2 ^ 64)
    (hs : s < 2 ^ 32) :
    (encodePayload p c s).bind decodePayload = some (0, p, c.toNat, s) := by
  have hcn : c.toNat < 2 ^ 64 := by
    have e1 : ((2 : Int) ^ 64) = 18446744073709551616 := by norm_num
    have e2 : (2 : Nat) ^ 64 = 18446744073709551616 := by norm_num
    rw [e1] at hc
    rw [e2]
    omega
  have hA : (encUIntLE 8 (toTwos64 p)).length = 8 := encUIntLE_length 8 _
  have hB : (encUIntLE 8 c.toNat).length = 8 := encUIntLE_length 8 _
  have e1 : List.take 8 ((encUIntLE 8 (toTwos64 p) ++ encUIntLE 8 c.toNat)
        ++ encUIntLE 4 s) = encUIntLE 8 (toTwos64 p) := by
    rw [List.append_assoc]
    exact List.take_left' hA
  have e2 : List.drop 8 ((encUIntLE 8 (toTwos64 p) ++ encUIntLE 8 c.toNat)
        ++ encUIntLE 4 s)
      = encUIntLE 8 c.toNat ++ encUIntLE 4 s := by
    rw [List.append_assoc]
    exact List.drop_left' hA
  have e3 : List.drop 16 ((encUIntLE 8 (toTwos64 p) ++ encUIntLE 8 c.toNat)
        ++ encUIntLE 4 s) = encUIntLE 4 s :=
    List.drop_left' (by rw [List.length_append, hA, hB])
  unfold encodePayload
  rw [if_pos ⟨hp1, hp2, hc0, hc, hs⟩]
  show decodePayload (payloadBytes p c.toNat s) = _
  unfold decodePayload
  rw [if_pos (payloadBytes_length p c.toNat s)]
  unfold payloadBytes
  simp only [List.headD_cons, List.drop_succ_cons, List.drop_zero, e1, e2, e3,
    List.take_left' hB]
  rw [decUIntLE_encUIntLE 8 (toTwos64 p)
        (by have := toTwos64_lt_size p; norm_num at this ⊢; exact this),
      decUIntLE_encUIntLE 8 c.toNat (by norm_num at hcn ⊢; exact hcn),
      decUIntLE_encUIntLE 4 s (by norm_num at hs ⊢; exact hs),
      fromTwos64_toTwos64 p hp1 hp2]

/-! ## Update decision policy (claims C1 and C4) -/

/-- C1 counterexample: at lastPrice 100, updateThreshold 1, updateInterval
1000, lastUpdate 0, observed price 100 and now 1000 the claimed
condition holds (now equals lastUpdate + updateInterval, so the claimed
inequality now >= lastUpdate + updateInterval is satisfied and the claim
requires true), yet needUpdate evaluates the strict comparison
now > lastUpdate + updateInterval and returns false. -/
theorem c1_counterexample :
    needUpdate ⟨1, 1000, 0, 0, 0, false⟩ ⟨0, 100, 1⟩ 100 1000 = some false
      ∧ ((100 : ℚ) ≠ 0) ∧ ((1000 : ℚ) ≥ 0 + 1000) := by
  refine ⟨?_, by norm_num, by norm_num⟩
  simp only [needUpdate]
  norm_num

/-- C1 amended: for every state with lastPrice nonzero, needUpdate
returns (without throwing) exactly the value of
now > lastUpdate + updateInterval (strict comparison), or else the
absolute value of the whole relative-deviation expression
(price - lastPrice) / lastPrice * 100 exceeding updateThreshold. -/
theorem c1_needUpdate_characterization (cfg : OracleConfig) (st : OracleState)
    (price now : ℚ) (h : st.lastPrice ≠ 0) :
    needUpdate cfg st price now
      = some (decide (now > st.lastUpdate + cfg.updateInterval
          ∨ |(price - st.lastPrice) / st.lastPrice * 100| > cfg.updateThreshold)) := by
  unfold needUpdate
  by_cases hgt : now > st.lastUpdate + cfg.updateInterval
  · rw [if_pos hgt, decide_eq_true (Or.inl hgt)]
  · rw [if_neg hgt, if_neg h]
    exact congrArg some (decide_eq_decide.mpr (or_iff_right hgt).symm)

/-- C1 witness: the amended characterization evaluated at a 2 percent
deviation against a 1 percent threshold inside the freshness window. -/
theorem c1_witness :
    needUpdate ⟨1, 1000, 0, 0, 0, false⟩ ⟨0, 100, 1⟩ 102 500
      = some (decide ((500 : ℚ) > 0 + 1000
          ∨ |((102 : ℚ) - 100) / 100 * 100| > 1)) :=
  c1_needUpdate_characterization ⟨1, 1000, 0, 0, 0, false⟩ ⟨0, 100, 1⟩ 102 500 (by norm_num)

/-- C4 counterexample: with a zero baseline and a time inside the
freshness window (now 1000, updateInterval 60000, lastUpdate 0) the
decision function reaches assert(this.lastPrice) with lastPrice 0 and
throws (modelled by none) instead of returning a publish decision. -/
theorem c4_counterexample :
    needUpdate ⟨1, 60000, 0, 0, 0, false⟩ ⟨0, 0, 0⟩ 5 1000 = none := by
  simp only [needUpdate]
  norm_num

/-- C4 amended: with a zero baseline the decision function returns
publish without reaching the assertion provided the freshness branch is
taken, now > lastUpdate + updateInterval; this always holds in a run
started with lastUpdate 0 and a wall-clock now, which is the only
situation in which the baseline is unset. -/
theorem c4_zero_baseline (cfg : OracleConfig) (st : OracleState) (price now : ℚ)
    (_h0 : st.lastPrice = 0) (hfresh : now > st.lastUpdate + cfg.updateInterval) :
    needUpdate cfg st price now = some true := by
  unfold needUpdate
  rw [if_pos hfresh]

/-- C4 witness: the amended statement evaluated at the initial state. -/
theorem c4_witness :
    needUpdate ⟨1, 1000, 0, 0, 0, false⟩ ⟨0, 0, 0⟩ 5 2000 = some true :=
  c4_zero_baseline ⟨1, 1000, 0, 0, 0, false⟩ ⟨0, 0, 0⟩ 5 2000 rfl (by norm_num)

/-! ## Status computation (claim C7) -/

/-- C7: when a publish is decided the status is invalid exactly when the
spread is negative and not allowed, or the mark price leaves the
configured bounds, and valid otherwise; and when needUpdate decides not
to publish, the tick emits no publish request, so the status expression
is only evaluated on the publish path. -/
theorem c7_status_characterization (cfg : OracleConfig) (bid ask : ℚ) :
    (computeStatus cfg bid ask = invalidStatus
      ↔ ((bid > ask ∧ cfg.allowNegativeSpread = false)
          ∨ getMarkPrice bid ask < cfg.minThreshold
          ∨ getMarkPrice bid ask > cfg.maxThreshold))
    ∧ (computeStatus cfg bid ask = validStatus
      ↔ ¬((bid > ask ∧ cfg.allowNegativeSpread = false)
          ∨ getMarkPrice bid ask < cfg.minThreshold
          ∨ getMarkPrice bid ask > cfg.maxThreshold))
    ∧ (∀ (st : OracleState) (now : ℚ),
        needUpdate cfg st (getMarkPrice bid ask) now = some false →
        tickPublishPhase cfg st (some (bid, ask)) now = some (st, [])) := by
  have hiff : ((cfg.allowNegativeSpread = false ∧ bid > ask)
      ∨ getMarkPrice bid ask < cfg.minThreshold
      ∨ cfg.maxThreshold < getMarkPrice bid ask)
    ↔ ((bid > ask ∧ cfg.allowNegativeSpread = false)
      ∨ getMarkPrice bid ask < cfg.minThreshold
      ∨ getMarkPrice bid ask > cfg.maxThreshold) := by
    constructor <;> (intro hx; tauto)
  refine ⟨?_, ?_, ?_⟩
  · unfold computeStatus
    split
    · next hc => exact iff_of_true rfl (hiff.mp hc)
    · next hc => exact iff_of_false (by decide) (fun hclaim => hc (hiff.mpr hclaim))
  · unfold computeStatus
    split
    · next hc => exact iff_of_false (by decide) (not_not_intro (hiff.mp hc))
    · next hc => exact iff_of_true rfl (fun hclaim => hc (hiff.mpr hclaim))
  · intro st now hnu
    simp only [tickPublishPhase, hnu]

/-- C7 witness: a tick whose deviation stays below the threshold inside
the freshness window publishes nothing. -/
theorem c7_witness :
    tickPublishPhase ⟨10, 1000, 0, 0, 100, false⟩ ⟨0, 5/2, 1⟩ (some (2, 3)) 500
      = some (⟨0, 5/2, 1⟩, []) :=
  (c7_status_characterization ⟨10, 1000, 0, 0, 100, false⟩ 2 3).2.2 ⟨0, 5/2, 1⟩ 500
    (by simp only [needUpdate, getMarkPrice]; norm_num)

/-! ## Payload round trip (claim C6) -/

/-- C6 counterexample: the price 100000000000 scales to 10^19, which
exceeds the signed 64-bit range; the high 32-bit word computed by the
ns64 codec fails the bounds check of the signed 32-bit buffer write, so
the encoder throws and no payload is produced at all: the claim that
every price is encoded into the layout and decodes back exactly fails. -/
theorem c6_counterexample :
    composeUpdatePriceData 100000000000 1 1 = none
    ∧ ((100000000000 : ℚ) * 100000000).num = 10000000000000000000
    ∧ ¬ ((10000000000000000000 : Int) < 2 ^ 63) := by
  have h1 : ((100000000000 : ℚ) * 100000000).num = 10000000000000000000 := by norm_num
  have h2 : ((1 : ℚ) * 10000).num = 10000 := by norm_num
  refine ⟨?_, h1, by norm_num⟩
  unfold composeUpdatePriceData
  rw [h1, h2]
  unfold encodePayload
  rw [if_neg (by norm_num)]

/-- C6 amended: whenever the scaled price is an integer in the signed
64-bit range, the scaled confidence an integer in the unsigned 64-bit
range and the status below 2^32, the encoder produces the fixed layout
with instruction byte 0 and decoding it reproduces price times 10^8,
confidence times 10^4 and the status exactly; outside those ranges the
encoder throws and produces no payload. -/
theorem c6_payload_roundtrip (price confidence : ℚ) (status : Nat)
    (hpden : (price * 100000000).den = 1)
    (hplo : -(2 ^ 63) ≤ (price * 100000000).num)
    (hphi : (price * 100000000).num < 2 ^ 63)
    (hcden : (confidence * 10000).den = 1)
    (hc0 : 0 ≤ (confidence * 10000).num)
    (hchi : (confidence * 10000).num < 2 ^ 64)
    (hs : status < 2 ^ 32) :
    (composeUpdatePriceData price confidence status).bind decodePayload
      = some (0, (price * 100000000).num, (confidence * 10000).num.toNat, status)
    ∧ (((price * 100000000).num : ℚ)) = price * 100000000
    ∧ (((confidence * 10000).num.toNat : ℚ)) = confidence * 10000 := by
  refine ⟨?_, (Rat.den_eq_one_iff _).mp hpden, ?_⟩
  · unfold composeUpdatePriceData
    exact decodePayload_encodePayload _ _ _ hplo hphi hc0 hchi hs
  · have h := (Rat.den_eq_one_iff _).mp hcden
    have h2 : (((confidence * 10000).num.toNat : Int)) = (confidence * 10000).num :=
      Int.toNat_of_nonneg hc0
    calc (((confidence * 10000).num.toNat : ℚ))
        = (((((confidence * 10000).num.toNat : Int)) : ℚ)) := by push_cast; ring
      _ = (((confidence * 10000).num : ℚ)) := by rw [h2]
      _ = confidence * 10000 := h

/-- C6 witness: a representative negative price and fractional
confidence, the scaled values integral and in range. -/
theorem c6_witness :
    (composeUpdatePriceData (-5/2) (3/10000) 1).bind decodePayload
      = some (0, (((-5 : ℚ)/2) * 100000000).num, (((3 : ℚ)/10000) * 10000).num.toNat, 1)
    ∧ (((((-5 : ℚ)/2) * 100000000).num : ℚ)) = (-5/2) * 100000000
    ∧ (((((3 : ℚ)/10000) * 10000).num.toNat : ℚ)) = (3/10000) * 10000 :=
  c6_payload_roundtrip (-5/2) (3/10000) 1
    (by norm_num) (by norm_num) (by norm_num) (by norm_num) (by norm_num)
    (by norm_num) (by norm_num)

/-! ## Inactivity rule (claim C3) -/

/-- The publish phase of a tick only ever stores a status produced by
computeStatus, so the status codes stay in the set written by the
program. -/
theorem tickPublishPhase_status (cfg : OracleConfig) (st : OracleState)
    (obs : Option (ℚ × ℚ)) (now : ℚ) (st1 : OracleState) (evs : List PublishEvent)
    (hphase : tickPublishPhase cfg st obs now = some (st1, evs))
    (hst : st.lastStatus = 0 ∨ st.lastStatus = 1) :
    st1.lastStatus = 0 ∨ st1.lastStatus = 1 := by
  cases obs with
  | none =>
    simp only [tickPublishPhase, Option.some.injEq, Prod.mk.injEq] at hphase
    exact hphase.1 ▸ hst
  | some p =>
    obtain ⟨bid, ask⟩ := p
    simp only [tickPublishPhase] at hphase
    cases hnu : needUpdate cfg st (getMarkPrice bid ask) now with
    | none => rw [hnu] at hphase; exact absurd hphase (by simp)
    | some b =>
      rw [hnu] at hphase
      cases b with
      | false =>
        simp only [Option.some.injEq, Prod.mk.injEq] at hphase
        exact hphase.1 ▸ hst
      | true =>
        simp only [Option.some.injEq, Prod.mk.injEq] at hphase
        rw [← hphase.1]
        unfold applyUpdate computeStatus
        split
        · exact Or.inl rfl
        · exact Or.inr rfl

/-- C3: after the publish phase of any tick, including ticks on which no
observation was obtained, the inactivity rule appends a forced publish
of the last known price with status forced to 0 exactly when
inactiveDuration is nonzero, now > lastUpdate + inactiveDuration for the
state left by the publish phase, and the last status is valid. -/
theorem c3_inactivity_rule (cfg : OracleConfig) (st : OracleState)
    (obs : Option (ℚ × ℚ)) (now : ℚ) (st1 : OracleState) (evs : List PublishEvent)
    (hphase : tickPublishPhase cfg st obs now = some (st1, evs))
    (hst : st.lastStatus = 0 ∨ st.lastStatus = 1) :
    tick cfg st obs now
      = some (if inactiveFires cfg st1 now
          then (applyUpdate st1.lastPrice invalidStatus now,
                evs ++ [⟨st1.lastPrice, invalidStatus, now⟩])
          else (st1, evs))
    ∧ (inactiveFires cfg st1 now = true
        ↔ (cfg.inactiveDuration ≠ 0 ∧ now > st1.lastUpdate + cfg.inactiveDuration
            ∧ st1.lastStatus = validStatus)) := by
  constructor
  · simp only [tick, hphase]
  · have h1 := tickPublishPhase_status cfg st obs now st1 evs hphase hst
    simp only [inactiveFires, Bool.and_eq_true, decide_eq_true_eq]
    constructor
    · rintro ⟨⟨ha, hb⟩, hc⟩
      refine ⟨ha, hb, ?_⟩
      rcases h1 with h | h
      · exact absurd h hc
      · exact h
    · rintro ⟨ha, hb, hc⟩
      refine ⟨⟨ha, hb⟩, ?_⟩
      rw [hc]
      decide

/-- C3 witness: a tick with no observation, a valid last status and an
elapsed inactivity window, evaluated through the rule. -/
theorem c3_witness :
    tick ⟨1, 1000, 5, 0, 1000000, false⟩ ⟨0, 100, 1⟩ none 10
      = some (if inactiveFires ⟨1, 1000, 5, 0, 1000000, false⟩ ⟨0, 100, 1⟩ 10
          then (applyUpdate (100 : ℚ) invalidStatus 10, [] ++ [⟨100, invalidStatus, 10⟩])
          else (⟨0, 100, 1⟩, []))
    ∧ (inactiveFires ⟨1, 1000, 5, 0, 1000000, false⟩ ⟨0, 100, 1⟩ 10 = true
        ↔ ((1 : ℚ) ≠ 0 ∧ (10 : ℚ) > 0 + 5 ∧ 1 = validStatus)) := by
  simpa using c3_inactivity_rule ⟨1, 1000, 5, 0, 1000000, false⟩ ⟨0, 100, 1⟩ none 10
    ⟨0, 100, 1⟩ [] rfl (Or.inr rfl)

/-! ## Startup configuration check (claim C9) -/

/-- C9: the startup check refuses the configuration inactiveDuration 500,
updateInterval 1000 as the claim demands, but at the boundary
inactiveDuration = updateInterval = 1000 the strict comparison of the
code lets the process start, although the claim, and the error message
of the code itself, demand that a nonzero inactiveDuration strictly
exceed updateInterval. -/
theorem c9_boundary_not_refused :
    configRefused 1000 1000 = false ∧ configRefused 500 1000 = true := by
  constructor <;> (simp only [configRefused]; norm_num)

/-! ## Optimistic local state update (claim C10) -/

/-- C10: when updatePrice completes normally the local state is exactly
lastUpdate = now, lastPrice = price, lastStatus = status, and this holds
for every delivery environment, so no outcome of the fire-and-forget
delivery task (confirmation, timeout or rejected broadcast) can change
those fields; when updatePrice throws while fetching the blockhash, the
previous state is kept unchanged. -/
theorem c10_updatePrice_frame (st : OracleState) (price : ℚ) (status : Nat) (now : ℚ)
    (e : DeliveryEnv) (fuel : Nat) :
    updatePriceRun st false e fuel price status now
      = Except.ok (⟨now, price, status⟩,
          deliver defaultTimeout defaultPollIntervalMs defaultSendIntervalMs
            defaultSendRetries e fuel)
    ∧ updatePriceRun st true e fuel price status now = Except.error st :=
  ⟨rfl, rfl⟩

/-! ## Delivery protocol (claims C2, C5 and C8) -/

/-- A strictly increasing clock never runs behind the recorded start. -/
theorem start_le_t (e : DeliveryEnv) (hmono : ∀ i, e.t i < e.t (i + 1))
    (hstart : e.start ≤ e.t 0) : ∀ i, e.start ≤ e.t i := by
  intro i
  induction i with
  | zero => exact hstart
  | succ i ih => have := hmono i; omega

/-- Against a channel that never confirms and whose broadcasts succeed,
the loop runs to deadline expiry: it returns unconfirmed with at most
sendRetries rebroadcasts beyond the initial send, at the first clock
reading at or beyond the deadline, provided the fuel covers the
iteration count (a strictly increasing clock caps it by timeout). -/
theorem deliverLoop_never_confirm (timeout sendInterval sendRetries : Nat) (e : DeliveryEnv)
    (hmono : ∀ i, e.t i < e.t (i + 1)) (hstart : e.start ≤ e.t 0)
    (hnoconf : ∀ i, e.confirmAt i = false) (hnosend : ∀ i, e.sendFails i = false) :
    ∀ fuel i lastSend retries,
      timeout ≤ e.t i - e.start + fuel →
      retries ≤ sendRetries →
      ∃ s endT, deliverLoop timeout sendInterval sendRetries e fuel i lastSend retries
          = some (.returned false s endT)
        ∧ s ≤ sendRetries + 1 ∧ timeout ≤ endT - e.start := by
  intro fuel
  induction fuel with
  | zero =>
    intro i lastSend retries hfuel hret
    have hge : ¬ (e.t i - e.start < timeout) := by omega
    exact ⟨retries + 1, e.t i, by rw [deliverLoop, if_neg hge], by omega, by omega⟩
  | succ fuel ih =>
    intro i lastSend retries hfuel hret
    by_cases hguard : e.t i - e.start < timeout
    · have hstep : e.t i < e.t (i + 1) := hmono i
      have hsi : e.start ≤ e.t i := start_le_t e hmono hstart i
      have hsi1 : e.start ≤ e.t (i + 1) := start_le_t e hmono hstart (i + 1)
      have hfuel' : timeout ≤ e.t (i + 1) - e.start + fuel := by omega
      rw [deliverLoop, if_pos hguard]
      by_cases hreb : retries < sendRetries ∧ sendInterval < e.t i - lastSend
      · rw [if_pos hreb, if_neg (by simp [hnosend i]),
          if_neg (fun hq => by simp [hnoconf i] at hq)]
        exact ih (i + 1) (e.t i) (retries + 1) hfuel' (by omega)
      · rw [if_neg hreb, if_neg (fun hq => by simp [hnoconf i] at hq)]
        exact ih (i + 1) lastSend retries hfuel' hret
    · exact ⟨retries + 1, e.t i, by rw [deliverLoop, if_neg hguard], by omega, by omega⟩

/-- C2 counterexample: a concrete schedule on which the delivery returns
unconfirmed at elapsed time 12 against a deadline of 10, so the return
does not occur after exactly the deadline, only at the first reading at
or beyond it. -/
theorem c2_counterexample :
    deliver 10 1000 5 40
        ⟨0, fun i => 3 * i, fun _ => false, fun _ => false, fun _ => false, false⟩ 11
      = some (.returned false 2 12)
    ∧ (12 : Nat) - 0 ≠ 10 := by
  constructor
  · decide
  · decide

/-- C2 amended: given a channel that never reports a confirmation and
whose broadcasts succeed, deliver returns confirmed false (a null
transactionResponse) at the first clock reading at or beyond the
deadline, so after at least the configured deadline has elapsed, having
issued at most sendRetries + 1 broadcasts in total. -/
theorem c2_deadline_expiry (timeout pollInterval sendInterval sendRetries : Nat)
    (e : DeliveryEnv)
    (hmono : ∀ i, e.t i < e.t (i + 1)) (hstart : e.start ≤ e.t 0)
    (hnoconf : ∀ i, e.confirmAt i = false) (hnosend : ∀ i, e.sendFails i = false)
    (hinit : e.initSendFails = false) :
    ∃ s endT, deliver timeout pollInterval sendInterval sendRetries e (timeout + 1)
        = some (.returned false s endT)
      ∧ s ≤ sendRetries + 1 ∧ timeout ≤ endT - e.start := by
  have h := deliverLoop_never_confirm timeout sendInterval sendRetries e hmono hstart
    hnoconf hnosend (timeout + 1) 0 e.start 0 (by omega) (by omega)
  unfold deliver
  rw [if_neg (by simp [hinit])]
  exact h

/-- C2 witness: the deadline-expiry theorem evaluated on a unit-step
clock with deadline 5 and rebroadcast budget 3. -/
theorem c2_witness :
    ∃ s endT, deliver 5 1 2 3
        ⟨0, fun i => i, fun _ => false, fun _ => false, fun _ => false, false⟩ 6
        = some (.returned false s endT)
      ∧ s ≤ 3 + 1 ∧ 5 ≤ endT - 0 := by
  simpa using c2_deadline_expiry 5 1 2 3
    ⟨0, fun i => i, fun _ => false, fun _ => false, fun _ => false, false⟩
    (fun i => Nat.lt_succ_self i) (Nat.le_refl 0) (fun _ => rfl) (fun _ => rfl) rfl

/-- The same environment with every confirmation-query failure replaced
by an absent confirmation: queries never fail, and a confirmation is
observed only when the original query both confirmed and did not
fail. -/
def maskQuery (e : DeliveryEnv) : DeliveryEnv :=
  { e with queryFails := fun _ => false,
           confirmAt := fun i => e.confirmAt i && !(e.queryFails i) }

/-- C5 counterexample: a schedule on which the rebroadcast of iteration
one rejects; the loop does not continue to the next iteration but the
whole delivery aborts with a rejection after only 2 broadcast calls,
long before the 120000 ms deadline. -/
theorem c5_counterexample :
    deliver 120000 1000 5000 40
        ⟨0, fun i => 6000 * i, fun _ => false, fun _ => false, fun _ => true, false⟩ 10
      = some (.raised 2)
    ∧ (6000 : Nat) - 0 < 120000 := by
  constructor
  · decide
  · decide

/-- C5 amended: a failing confirmation-status query is absorbed as no
result yet, the run being identical to one against a channel that
merely returned no confirmation; a failing rebroadcast instead aborts
the delivery invocation with a rejection, but that rejection is
swallowed by the fire-and-forget launch, so the Publisher still
completes updatePrice with exactly the submitted state. -/
theorem c5_failure_handling :
    (∀ (timeout sendInterval sendRetries : Nat) (e : DeliveryEnv)
        (fuel i lastSend retries : Nat),
        deliverLoop timeout sendInterval sendRetries e fuel i lastSend retries
          = deliverLoop timeout sendInterval sendRetries (maskQuery e) fuel i lastSend retries)
    ∧ (∀ (st : OracleState) (price : ℚ) (status : Nat) (now : ℚ)
        (e : DeliveryEnv) (fuel k : Nat),
        deliver defaultTimeout defaultPollIntervalMs defaultSendIntervalMs
            defaultSendRetries e fuel = some (.raised k) →
        updatePriceRun st false e fuel price status now
          = Except.ok (⟨now, price, status⟩, some (.raised k))) := by
  constructor
  · intro timeout sendInterval sendRetries e fuel
    induction fuel with
    | zero => intro i ls r; rfl
    | succ fuel ih =>
      intro i ls r
      have hiff : (e.queryFails i = false ∧ e.confirmAt i = true)
          ↔ ((maskQuery e).queryFails i = false ∧ (maskQuery e).confirmAt i = true) := by
        simp only [maskQuery]
        cases hq : e.queryFails i <;> cases hc : e.confirmAt i <;> simp
      rw [deliverLoop, deliverLoop]
      refine if_congr Iff.rfl ?_ rfl
      refine if_congr Iff.rfl ?_ ?_
      · refine if_congr Iff.rfl rfl ?_
        refine if_congr hiff rfl ?_
        exact ih (i + 1) (e.t i) (r + 1)
      · refine if_congr hiff rfl ?_
        exact ih (i + 1) ls r
  · intro st price status now e fuel k h
    simp only [updatePriceRun, if_neg (by simp : ¬ (false = true))]
    rw [h]
    rfl

/-- C5 witness: the Publisher completes its optimistic state update even
when the delivery it launched aborts on a rejected rebroadcast. -/
theorem c5_witness :
    updatePriceRun ⟨0, 0, 0⟩ false
        ⟨0, fun i => 6000 * i, fun _ => false, fun _ => false, fun _ => true, false⟩ 10 1 1 1
      = Except.ok (⟨1, 1, 1⟩, some (.raised 2)) :=
  c5_failure_handling.2 ⟨0, 0, 0⟩ 1 1 1
    ⟨0, fun i => 6000 * i, fun _ => false, fun _ => false, fun _ => true, false⟩ 10 2
    (by decide)

/-- C8 counterexample: the fixed wait raced against the confirmation
query is 1500 ms, which is not strictly shorter than the default
pollInterval of 1000 ms. -/
theorem c8_counterexample : ¬ (raceWaitMs < defaultPollIntervalMs) := by decide

/-- C8 amended: the confirmation query of every iteration is raced
against a fixed wait of 1500 ms, which exceeds the default pollInterval
of 1000 ms; whenever the query of an iteration observes a confirmation
(and the rebroadcast of that iteration did not reject), the loop
returns confirmed true at that same iteration, at that clock reading,
with no further polling. -/
theorem c8_confirm_immediate :
    raceWaitMs = 1500 ∧ defaultPollIntervalMs < raceWaitMs
    ∧ (∀ (timeout sendInterval sendRetries : Nat) (e : DeliveryEnv)
        (fuel i lastSend retries : Nat),
        e.t i - e.start < timeout →
        e.sendFails i = false →
        e.queryFails i = false →
        e.confirmAt i = true →
        ∃ s, deliverLoop timeout sendInterval sendRetries e (fuel + 1) i lastSend retries
            = some (.returned true s (e.t i))) := by
  refine ⟨rfl, by decide, ?_⟩
  intro timeout sendInterval sendRetries e fuel i lastSend retries hg hsf hqf hcf
  rw [deliverLoop, if_pos hg]
  by_cases hreb : retries < sendRetries ∧ sendInterval < e.t i - lastSend
  · exact ⟨retries + 2, by rw [if_pos hreb, if_neg (by simp [hsf]), if_pos ⟨hqf, hcf⟩]⟩
  · exact ⟨retries + 1, by rw [if_neg hreb, if_pos ⟨hqf, hcf⟩]⟩

/-- C8 witness: a confirming first iteration returns at once. -/
theorem c8_witness :
    ∃ s, deliverLoop 10 5 3
        ⟨0, fun i => i, fun _ => true, fun _ => false, fun _ => false, false⟩ 1 0 0 0
      = some (.returned true s 0) := by
  simpa using c8_confirm_immediate.2.2 10 5 3
    ⟨0, fun i => i, fun _ => true, fun _ => false, fun _ => false, false⟩ 0 0 0 0
    (by decide) rfl rfl rfl

end Oracle
